import Mathlib

set_option autoImplicit false

/-!
Shallow embedding of the `CCompressedStorage` engine of the Trinity
repository (declarations in `src/compressedstorage.h`, implementation in
the translation unit accompanying `src/test/compressedstorage_tests.cpp`).

Byte buffers (`std::vector<unsigned char>`) are modelled as `List Nat`
whose entries are byte values.  Where the C++ performs fixed-width
machine arithmetic the wraparound is made explicit with `% 2 ^ w`.
-/

/-- Compression statistics (`struct CompressionStats`): four cumulative
`uint64_t` counters, zero-initialised.  The counters are modelled as
`Nat`; the `uint64_t` wraparound would require more than `2 ^ 64` bytes
processed, which no reachable state attains. -/
structure CompressionStats where
  nTotalBytesOriginal : Nat
  nTotalBytesCompressed : Nat
  nBlocksCompressed : Nat
  nDedupedTransactions : Nat
deriving DecidableEq, Repr

/-- A deduplication cache entry (`struct TxPattern`).  The 256-bit
`patternHash` (`uint256`) is modelled as its 32-byte list. -/
structure TxPattern where
  patternHash : List Nat
  data : List Nat
  refCount : Nat
deriving DecidableEq, Repr

/-- The engine state (`class CCompressedStorage`).  The deduplication
cache `std::map<uint256, TxPattern> mapTxPatterns` is modelled as an
association list keyed by the 32-byte hash (keys are unique in every
reachable state, and no operation of this development depends on the
iteration order of the map). -/
structure CCompressedStorage where
  mapTxPatterns : List (List Nat × TxPattern)
  stats : CompressionStats
  fCompressionEnabled : Bool
  nCompressionLevel : Int
deriving DecidableEq, Repr

/-- Constructor `CCompressedStorage()`: compression disabled, level 6,
empty cache, zeroed statistics. -/
def initStorage : CCompressedStorage :=
  { mapTxPatterns := []
    stats := ⟨0, 0, 0, 0⟩
    fCompressionEnabled := false
    nCompressionLevel := 6 }

/-- `CCompressedStorage::SetCompressionEnabled`. -/
def SetCompressionEnabled (st : CCompressedStorage) (fEnabled : Bool) :
    CCompressedStorage :=
  { st with fCompressionEnabled := fEnabled }

/-- `CCompressedStorage::SetCompressionLevel`: two sequential clamps,
`if (level < 1) level = 1; if (level > 9) level = 9;`.  The C++ `int`
argument is modelled as `Int`. -/
def SetCompressionLevel (st : CCompressedStorage) (level : Int) :
    CCompressedStorage :=
  let l1 : Int := if level < 1 then 1 else level
  let l2 : Int := if l1 > 9 then 9 else l1
  { st with nCompressionLevel := l2 }

/-- `CCompressedStorage::GetCompressionLevel`. -/
def GetCompressionLevel (st : CCompressedStorage) : Int :=
  st.nCompressionLevel

/-- `CCompressedStorage::ResetStats`. -/
def ResetStats (st : CCompressedStorage) : CCompressedStorage :=
  { st with stats := ⟨0, 0, 0, 0⟩ }

/-- `CCompressedStorage::ClearCache`. -/
def ClearCache (st : CCompressedStorage) : CCompressedStorage :=
  { st with mapTxPatterns := [] }

/-- Number of consecutive bytes equal to `c` at the head of a list: the
number of successful `input[i + runLength] == current` checks performed
by the inner loop of `CompressData` before the 255 cap applies. -/
def countEq (c : Nat) : List Nat → Nat
  | [] => 0
  | x :: xs => if x = c then countEq c xs + 1 else 0

/-- Outer loop of `CCompressedStorage::CompressData`, written with fuel
on the number of iterations (each iteration consumes at least one input
byte, so `input.length` fuel always suffices).  The run length at the
current position is `min (countEq c rest + 1) 255`, matching the loop
`while (i + runLength < input.size() && input[i + runLength] == current
&& runLength < 255)`.  A run of length ≥ 4 becomes the escape triple
`0xFF, runLength, value`; shorter runs are copied literally. -/
def compressDataAux : Nat → List Nat → List Nat
  | 0, _ => []
  | _ + 1, [] => []
  | fuel + 1, c :: rest =>
    let runLength := min (countEq c rest + 1) 255
    (if 4 ≤ runLength then [255, runLength, c] else List.replicate runLength c)
      ++ compressDataAux fuel (rest.drop (runLength - 1))

/-- `CCompressedStorage::CompressData`: RLE-compresses `input` and adds
`input.size()` and `output.size()` to the byte counters.  The `level`
argument is accepted and ignored, exactly as in the source.  The C++
returns `true` on every path, so the result is just the output buffer
paired with the updated state. -/
def CompressData (st : CCompressedStorage) (input : List Nat) (level : Int) :
    List Nat × CCompressedStorage :=
  if input = [] then ([], st)
  else
    let output := compressDataAux input.length input
    (output,
      { st with stats :=
        { st.stats with
          nTotalBytesOriginal := st.stats.nTotalBytesOriginal + input.length
          nTotalBytesCompressed := st.stats.nTotalBytesCompressed + output.length } })

/-- `CCompressedStorage::DecompressData`: whenever the current byte is
`0xFF` and at least two more bytes follow (`i + 2 < input.size()`), the
three bytes are consumed as an RLE triple `0xFF, runLength, value` and
expanded; otherwise the byte is copied through.  Always succeeds. -/
def DecompressData : List Nat → List Nat
  | 255 :: runLength :: value :: rest =>
      List.replicate runLength value ++ DecompressData rest
  | b :: rest => b :: DecompressData rest
  | [] => []

theorem countEq_le_length (c : Nat) (l : List Nat) : countEq c l ≤ l.length := by
  induction l with
  | nil => simp [countEq]
  | cons x xs ih =>
    simp only [countEq, List.length_cons]
    split <;> omega

theorem compressDataAux_length_le (fuel : Nat) (l : List Nat) :
    (compressDataAux fuel l).length ≤ l.length := by
  induction fuel generalizing l with
  | zero => simp [compressDataAux]
  | succ n ih =>
    match l with
    | [] => simp [compressDataAux]
    | c :: rest =>
      have hc := countEq_le_length c rest
      have hrec := ih (rest.drop (min (countEq c rest + 1) 255 - 1))
      rw [List.length_drop] at hrec
      simp only [compressDataAux, List.length_append, List.length_cons]
      split
      · simp only [List.length_cons, List.length_nil]
        omega
      · simp only [List.length_replicate]
        omega

/-- C9: for every engine state, input buffer and level, the output of
`CompressData` is never longer than the input: every encoded run of
length ≥ 4 is replaced by a 3-byte triple and all other bytes are copied
one-for-one. -/
theorem C9_compress_never_expands (st : CCompressedStorage) (input : List Nat)
    (level : Int) : ((CompressData st input level).1).length ≤ input.length := by
  unfold CompressData
  split
  · simp
  · exact compressDataAux_length_le input.length input

/-- C1: the compress/decompress roundtrip is violated on the concrete
buffer `[0xFF, 0x01, 0x02]`: the 1-byte run of the escape byte `0xFF` is
copied literally by `CompressData`, and `DecompressData` then misreads
`0xFF, 0x01, 0x02` as an RLE triple, producing `[0x02]` instead of the
original three bytes. -/
theorem C1_roundtrip_violation :
    DecompressData ((CompressData initStorage [255, 1, 2] 6).1) = [2]
    ∧ [2] ≠ [255, 1, 2] := by
  constructor
  · decide
  · decide

/-- The magic bytes `COMPRESSION_MAGIC = { 'T', 'C', 'M', 'P' }`. -/
def COMPRESSION_MAGIC : List Nat := [84, 67, 77, 80]

/-- `COMPRESSION_VERSION = 0x01`. -/
def COMPRESSION_VERSION : Nat := 1

/-- Big-endian 32-bit assembly `(b0 << 24) | (b1 << 16) | (b2 << 8) | b3`
as performed on `uint32_t` values in `DecompressBlock` (and on `int64_t`
in `DeltaDecode`, where the four bytes are likewise nonnegative). -/
def be32 (b0 b1 b2 b3 : Nat) : Nat :=
  b0 <<< 24 ||| b1 <<< 16 ||| b2 <<< 8 ||| b3

/-- Error kinds of the decode paths, one per `error(...)` site of the
source (the spec's taxonomy): unsupported version, size violations
(declared-size bound and post-decompression mismatch), and a missing
deduplication fingerprint.  The source's fourth site ("decompression
failed") is unreachable because `DecompressData` succeeds on every
input. -/
inductive BlockError where
  | formatError
  | sizeError
  | notFoundError
deriving DecidableEq, Repr

/-- Result of a decode call: the C++ functions return `bool` and write
the output buffer through a reference; `ok` is the `true` case with the
produced buffer, `err` a `return error(...)` site. -/
inductive BlockResult where
  | ok (output : List Nat)
  | err (e : BlockError)
deriving DecidableEq, Repr

/-- `CCompressedStorage::DecompressBlock`.  The bounds check
`14 + compressedSize > input.size()` is performed in C++ on
`unsigned int` (the `int` literal `14` converts to the type of the
`uint32_t` operand), so it wraps modulo `2 ^ 32` before the comparison
against `input.size()`; the model keeps that wraparound explicit.  The
flags byte `input[5]` is read but unused, as in the source.  When the
check passes, the source copies `compressedSize` bytes starting at
offset 14 (`input.begin() + 14` to `input.begin() + 14 + compressedSize`);
the model's `take` truncates at the end of the buffer, where the C++
would read out of bounds if `14 + compressedSize` exceeded
`input.size()`. -/
def DecompressBlock (st : CCompressedStorage) (input : List Nat) :
    BlockResult × CCompressedStorage :=
  if st.fCompressionEnabled = false ∨ input.length < 14 then (.ok input, st)
  else if input.take 4 ≠ COMPRESSION_MAGIC then (.ok input, st)
  else if input.getD 4 0 ≠ COMPRESSION_VERSION then (.err .formatError, st)
  else
    let originalSize := be32 (input.getD 6 0) (input.getD 7 0) (input.getD 8 0) (input.getD 9 0)
    let compressedSize := be32 (input.getD 10 0) (input.getD 11 0) (input.getD 12 0) (input.getD 13 0)
    if (14 + compressedSize) % 2 ^ 32 > input.length then (.err .sizeError, st)
    else
      let compressed := (input.drop 14).take compressedSize
      let output := DecompressData compressed
      if output.length ≠ originalSize then (.err .sizeError, st)
      else (.ok output, st)

/-- C6: `DecompressBlock` is the identity passthrough (success, output
byte-for-byte equal to the input, state untouched) whenever compression
is disabled, or the input is shorter than the 14-byte header, or the
leading 4 bytes differ from the magic constant. -/
theorem C6_passthrough (st : CCompressedStorage) (input : List Nat)
    (h : st.fCompressionEnabled = false ∨ input.length < 14
       ∨ input.take 4 ≠ COMPRESSION_MAGIC) :
    DecompressBlock st input = (.ok input, st) := by
  unfold DecompressBlock
  by_cases h1 : st.fCompressionEnabled = false ∨ input.length < 14
  · rw [if_pos h1]
  · rw [if_neg h1]
    have h2 : input.take 4 ≠ COMPRESSION_MAGIC := by tauto
    rw [if_pos h2]

theorem C6_passthrough_witness :
    DecompressBlock initStorage [9, 9, 9] = (.ok [9, 9, 9], initStorage) :=
  C6_passthrough initStorage [9, 9, 9] (Or.inl rfl)

/-- C7: with compression enabled, an input of at least 14 bytes whose
leading 4 bytes match the magic constant but whose version byte differs
from `COMPRESSION_VERSION` makes `DecompressBlock` fail with the format
error (no passthrough, no decompression attempt). -/
theorem C7_version_mismatch (st : CCompressedStorage) (input : List Nat)
    (hen : st.fCompressionEnabled = true) (hlen : 14 ≤ input.length)
    (hmagic : input.take 4 = COMPRESSION_MAGIC)
    (hver : input.getD 4 0 ≠ COMPRESSION_VERSION) :
    DecompressBlock st input = (.err .formatError, st) := by
  unfold DecompressBlock
  rw [if_neg (by simp [hen]; omega), if_neg (by simp [hmagic]), if_pos hver]

theorem C7_version_mismatch_witness :
    DecompressBlock (SetCompressionEnabled initStorage true)
        [84, 67, 77, 80, 2, 0, 0, 0, 0, 0, 0, 0, 0, 0]
      = (.err .formatError, SetCompressionEnabled initStorage true) :=
  C7_version_mismatch (SetCompressionEnabled initStorage true)
    [84, 67, 77, 80, 2, 0, 0, 0, 0, 0, 0, 0, 0, 0]
    rfl (by decide) (by decide) (by decide)

/-- A 14-byte envelope: magic tag, version 1, flags 0, declared original
size 0, declared compressed size `0xFFFFFFFF` — with no payload bytes at
all, so the declared compressed size exceeds the remaining buffer by
`2 ^ 32 - 1` bytes. -/
def c3Input : List Nat := [84, 67, 77, 80, 1, 0, 0, 0, 0, 0, 255, 255, 255, 255]

/-- C3: the declared-size bounds check of `DecompressBlock` wraps: on
`c3Input` the declared compressed size `2 ^ 32 - 1` exceeds the zero
remaining bytes, yet the computed guard `(14 + compressedSize) mod 2 ^ 32
= 13` is not greater than the input length, so no size error is raised
and the source proceeds to read `2 ^ 32 - 1` bytes past the end of the
buffer (the model's truncating slice yields the in-bounds remainder and
the call even reports success). -/
theorem C3_bounds_check_wraps :
    (DecompressBlock (SetCompressionEnabled initStorage true) c3Input).1
        = .ok []
    ∧ c3Input.length < 14 + be32 255 255 255 255
    ∧ (14 + be32 255 255 255 255) % 2 ^ 32 ≤ c3Input.length := by
  refine ⟨by decide, by decide, by decide⟩

/-- C8: `SetCompressionLevel` clamps every argument into `[1, 9]`:
`SetCompressionLevel 0` stores 1, `SetCompressionLevel 15` stores 9, the
stored level always lies in `[1, 9]`, and an argument already in that
range is stored unchanged. -/
theorem C8_level_clamped (st : CCompressedStorage) (n : Int) :
    GetCompressionLevel (SetCompressionLevel st 0) = 1
    ∧ GetCompressionLevel (SetCompressionLevel st 15) = 9
    ∧ 1 ≤ GetCompressionLevel (SetCompressionLevel st n)
    ∧ GetCompressionLevel (SetCompressionLevel st n) ≤ 9
    ∧ (1 ≤ n → n ≤ 9 → GetCompressionLevel (SetCompressionLevel st n) = n) := by
  refine ⟨?_, ?_, ?_, ?_, fun hl hu => ?_⟩ <;>
    simp only [GetCompressionLevel, SetCompressionLevel] <;>
    split_ifs <;> omega

theorem C8_level_clamped_witness :
    GetCompressionLevel (SetCompressionLevel initStorage 0) = 1
    ∧ GetCompressionLevel (SetCompressionLevel initStorage 15) = 9
    ∧ GetCompressionLevel (SetCompressionLevel initStorage 5) = 5 :=
  ⟨(C8_level_clamped initStorage 5).1, (C8_level_clamped initStorage 5).2.1,
    (C8_level_clamped initStorage 5).2.2.2.2 (by decide) (by decide)⟩

/-- Modelled from the spec: the fingerprint function `Hash` comes from
`hash.h`, which is not part of the available source.  The spec requires
a deterministic, collision-resistant content hash of exactly 256 bits
(32 bytes); the claims settled here rely only on determinism and the
32-byte digest length, so the theorems are parameterised over an
arbitrary digest function and `specHash` is one concrete such function,
used by the witnesses: it folds the bytes into an accumulator modulo
`2 ^ 256` and emits the 32 big-endian bytes of the result. -/
def specHash (data : List Nat) : List Nat :=
  let acc := data.foldl (fun a b => (a * 257 + b + 1) % 2 ^ 256) 1
  (List.range 32).map fun i => acc / 2 ^ (8 * (31 - i)) % 256

theorem specHash_length (data : List Nat) : (specHash data).length = 32 := by
  simp [specHash]

/-- Lookup in the association list modelling `mapTxPatterns`: the first
entry with the given key (`std::map` indexing / `count`). -/
def lookupPattern (m : List (List Nat × TxPattern)) (k : List Nat) :
    Option TxPattern :=
  match m with
  | [] => none
  | (k', v) :: rest => if k' = k then some v else lookupPattern rest k

/-- `CCompressedStorage::ComputePatternHash`, parameterised over the
digest function standing in for `Hash`. -/
def ComputePatternHash (hashFn : List Nat → List Nat) (data : List Nat) :
    List Nat :=
  hashFn data

/-- `CCompressedStorage::FindDuplicatePattern`: computes the hash into
`hashOut` and reports whether `mapTxPatterns.count(hashOut) > 0`. -/
def FindDuplicatePattern (hashFn : List Nat → List Nat)
    (st : CCompressedStorage) (data : List Nat) : List Nat × Bool :=
  let hashOut := ComputePatternHash hashFn data
  (hashOut, (lookupPattern st.mapTxPatterns hashOut).isSome)

/-- `CCompressedStorage::StorePattern`: an existing fingerprint has its
`refCount` incremented (stored bytes untouched); a new fingerprint is
inserted with `refCount = 1`. -/
def StorePattern (st : CCompressedStorage) (hash : List Nat)
    (data : List Nat) : CCompressedStorage :=
  match lookupPattern st.mapTxPatterns hash with
  | some _ =>
    { st with mapTxPatterns := st.mapTxPatterns.map fun p =>
        if p.1 = hash then (p.1, { p.2 with refCount := p.2.refCount + 1 }) else p }
  | none =>
    { st with mapTxPatterns := (hash, ⟨hash, data, 1⟩) :: st.mapTxPatterns }

/-- `CCompressedStorage::CompressTransaction`: disabled → passthrough;
a known fingerprint → 33-byte reference `0xFE :: hash` and
`nDedupedTransactions++` (note: no `StorePattern` call, so no `refCount`
change); otherwise `StorePattern` followed by `CompressData`. -/
def CompressTransaction (hashFn : List Nat → List Nat)
    (st : CCompressedStorage) (input : List Nat) :
    List Nat × CCompressedStorage :=
  if st.fCompressionEnabled = false then (input, st)
  else
    let fd := FindDuplicatePattern hashFn st input
    if fd.2 then
      (254 :: fd.1,
        { st with stats :=
          { st.stats with
            nDedupedTransactions := st.stats.nDedupedTransactions + 1 } })
    else
      CompressData (StorePattern st fd.1 input) input st.nCompressionLevel

/-- `CCompressedStorage::DecompressTransaction`: disabled or empty input
→ passthrough; a 33-byte buffer starting with the marker `0xFE`
(`input[0] == 0xFE && input.size() >= 33 && input.size() == 33`) is
resolved through the cache, failing with the not-found error when the
fingerprint is absent; anything else goes through `DecompressData`. -/
def DecompressTransaction (st : CCompressedStorage) (input : List Nat) :
    BlockResult × CCompressedStorage :=
  if st.fCompressionEnabled = false ∨ input = [] then (.ok input, st)
  else if input.getD 0 0 = 254 ∧ 33 ≤ input.length ∧ input.length = 33 then
    let patternHash := (input.drop 1).take 32
    match lookupPattern st.mapTxPatterns patternHash with
    | some pat => (.ok pat.data, st)
    | none => (.err .notFoundError, st)
  else (.ok (DecompressData input), st)

/-- C10: the decode-path operations `DecompressBlock` and
`DecompressTransaction` return the engine state unchanged — statistics
counters and the whole deduplication cache included — whether they
succeed or fail (`DecompressData` carries no state at all in this
embedding, matching its stat-free source). -/
theorem C10_decode_frame (st : CCompressedStorage) (input : List Nat) :
    (DecompressBlock st input).2 = st
    ∧ (DecompressTransaction st input).2 = st := by
  constructor
  · unfold DecompressBlock
    dsimp only
    split_ifs <;> rfl
  · unfold DecompressTransaction
    dsimp only
    split_ifs
    · rfl
    · split <;> rfl
    · rfl

theorem lookupPattern_map_bump (m : List (List Nat × TxPattern)) (k : List Nat)
    (pat : TxPattern) (h : lookupPattern m k = some pat) :
    lookupPattern
        (m.map fun p =>
          if p.1 = k then (p.1, { p.2 with refCount := p.2.refCount + 1 }) else p) k
      = some { pat with refCount := pat.refCount + 1 } := by
  induction m with
  | nil => simp [lookupPattern] at h
  | cons hd tl ih =>
    obtain ⟨a, v⟩ := hd
    simp only [List.map_cons]
    by_cases hk : a = k
    · rw [if_pos hk]
      simp only [lookupPattern, if_pos hk] at h ⊢
      injection h with hv
      rw [hv]
    · rw [if_neg hk]
      simp only [lookupPattern, if_neg hk] at h ⊢
      exact ih h

theorem compressTransaction_hit (hashFn : List Nat → List Nat)
    (st : CCompressedStorage) (input : List Nat) (pat : TxPattern)
    (hen : st.fCompressionEnabled = true)
    (hfound : lookupPattern st.mapTxPatterns (hashFn input) = some pat) :
    CompressTransaction hashFn st input
      = (254 :: hashFn input,
          { st with stats :=
            { st.stats with
              nDedupedTransactions := st.stats.nDedupedTransactions + 1 } }) := by
  unfold CompressTransaction FindDuplicatePattern ComputePatternHash
  rw [if_neg (by simp [hen])]
  dsimp only
  rw [hfound]
  rfl

theorem compressTransaction_miss (hashFn : List Nat → List Nat)
    (st : CCompressedStorage) (input : List Nat)
    (hen : st.fCompressionEnabled = true)
    (habs : lookupPattern st.mapTxPatterns (hashFn input) = none)
    (hne : input ≠ []) :
    (CompressTransaction hashFn st input).2.mapTxPatterns
        = (hashFn input, ⟨hashFn input, input, 1⟩) :: st.mapTxPatterns
    ∧ (CompressTransaction hashFn st input).2.fCompressionEnabled = true := by
  unfold CompressTransaction FindDuplicatePattern ComputePatternHash StorePattern CompressData
  rw [if_neg (by simp [hen])]
  dsimp only
  rw [habs]
  dsimp only
  rw [if_neg hne]
  exact ⟨rfl, hen⟩

theorem decompressTransaction_ref (st : CCompressedStorage) (h : List Nat)
    (pat : TxPattern) (hen : st.fCompressionEnabled = true)
    (hlen : h.length = 32)
    (hfound : lookupPattern st.mapTxPatterns h = some pat) :
    DecompressTransaction st (254 :: h) = (.ok pat.data, st) := by
  unfold DecompressTransaction
  rw [if_neg (by simp [hen])]
  rw [if_pos (by simp [hlen])]
  dsimp only
  have h1 : ((254 :: h).drop 1).take 32 = h := by
    rw [show (254 :: h).drop 1 = h from rfl, ← hlen, List.take_length]
  rw [h1, hfound]

/-- C4 counterexample: starting from an empty cache with compression
enabled, encoding the payload `[5]` twice via `CompressTransaction`
leaves the stored pattern's `refCount` at 1 — the second (deduplicated)
encode does not increment it to 2 as the claim demands, because the hit
path of `CompressTransaction` never calls `StorePattern`. -/
theorem C4_counterexample :
    ¬ ((lookupPattern
          (CompressTransaction specHash
            (CompressTransaction specHash
              (SetCompressionEnabled initStorage true) [5]).2 [5]).2.mapTxPatterns
          (specHash [5])).map TxPattern.refCount = some 2)
    ∧ (lookupPattern
          (CompressTransaction specHash
            (CompressTransaction specHash
              (SetCompressionEnabled initStorage true) [5]).2 [5]).2.mapTxPatterns
          (specHash [5])).map TxPattern.refCount = some 1 := by
  constructor
  · decide
  · decide

/-- C4 (amended): a first-seen payload is inserted with `refCount = 1`,
but a subsequent `CompressTransaction` of the same payload takes the
deduplication hit path, which emits the reference and bumps the
`nDedupedTransactions` counter while leaving the cache — `refCount`
included — completely unchanged; `refCount` is incremented only by a
direct `StorePattern` call on an already-present fingerprint. -/
theorem C4_amended_refcount (hashFn : List Nat → List Nat)
    (st : CCompressedStorage) (input : List Nat) (pat : TxPattern)
    (k d : List Nat)
    (hen : st.fCompressionEnabled = true)
    (hhit : lookupPattern st.mapTxPatterns (hashFn input) = some pat)
    (habsK : lookupPattern st.mapTxPatterns k = none) :
    (CompressTransaction hashFn st input).2.mapTxPatterns = st.mapTxPatterns
    ∧ lookupPattern (StorePattern st (hashFn input) input).mapTxPatterns
        (hashFn input) = some { pat with refCount := pat.refCount + 1 }
    ∧ lookupPattern (StorePattern st k d).mapTxPatterns k = some ⟨k, d, 1⟩ := by
  refine ⟨?_, ?_, ?_⟩
  · rw [compressTransaction_hit hashFn st input pat hen hhit]
  · unfold StorePattern
    rw [hhit]
    exact lookupPattern_map_bump st.mapTxPatterns (hashFn input) pat hhit
  · unfold StorePattern
    rw [habsK]
    simp [lookupPattern]

theorem C4_amended_refcount_witness :
    (CompressTransaction specHash
        (CompressTransaction specHash (SetCompressionEnabled initStorage true) [5]).2
        [5]).2.mapTxPatterns
      = (CompressTransaction specHash (SetCompressionEnabled initStorage true) [5]).2.mapTxPatterns
    ∧ lookupPattern
        (StorePattern
          (CompressTransaction specHash (SetCompressionEnabled initStorage true) [5]).2
          (specHash [5]) [5]).mapTxPatterns (specHash [5])
      = some ⟨specHash [5], [5], 2⟩
    ∧ lookupPattern
        (StorePattern
          (CompressTransaction specHash (SetCompressionEnabled initStorage true) [5]).2
          [9] [8]).mapTxPatterns [9]
      = some ⟨[9], [8], 1⟩ :=
  C4_amended_refcount specHash
    (CompressTransaction specHash (SetCompressionEnabled initStorage true) [5]).2
    [5] ⟨specHash [5], [5], 1⟩ [9] [8] (by decide) (by decide) (by decide)

/-- C5: with compression enabled and the fingerprint of a non-empty
payload not yet cached, encoding the payload twice via
`CompressTransaction` yields on the second call exactly the 33-byte
reference `0xFE :: fingerprint`, and `DecompressTransaction` applied to
that output (in the state left behind) returns the original payload. -/
theorem C5_dedup_second_encode (hashFn : List Nat → List Nat)
    (st : CCompressedStorage) (input : List Nat)
    (hlen : (hashFn input).length = 32)
    (hen : st.fCompressionEnabled = true)
    (hne : input ≠ [])
    (habs : lookupPattern st.mapTxPatterns (hashFn input) = none) :
    (CompressTransaction hashFn (CompressTransaction hashFn st input).2 input).1
        = 254 :: hashFn input
    ∧ ((CompressTransaction hashFn (CompressTransaction hashFn st input).2 input).1).length
        = 33
    ∧ (DecompressTransaction
          (CompressTransaction hashFn (CompressTransaction hashFn st input).2 input).2
          ((CompressTransaction hashFn (CompressTransaction hashFn st input).2 input).1)).1
        = .ok input := by
  obtain ⟨hmap1, hen1⟩ := compressTransaction_miss hashFn st input hen habs hne
  have hfound1 : lookupPattern (CompressTransaction hashFn st input).2.mapTxPatterns
      (hashFn input) = some ⟨hashFn input, input, 1⟩ := by
    rw [hmap1]
    simp [lookupPattern]
  have h2 := compressTransaction_hit hashFn (CompressTransaction hashFn st input).2
    input ⟨hashFn input, input, 1⟩ hen1 hfound1
  have hen2 : (CompressTransaction hashFn (CompressTransaction hashFn st input).2
      input).2.fCompressionEnabled = true := by
    rw [h2]
    exact hen1
  have hfound2 : lookupPattern
      (CompressTransaction hashFn (CompressTransaction hashFn st input).2
        input).2.mapTxPatterns (hashFn input)
      = some ⟨hashFn input, input, 1⟩ := by
    rw [h2]
    exact hfound1
  have hout : (CompressTransaction hashFn (CompressTransaction hashFn st input).2
      input).1 = 254 :: hashFn input := by
    rw [h2]
  refine ⟨hout, ?_, ?_⟩
  · rw [hout]
    simp [hlen]
  · rw [hout,
      decompressTransaction_ref _ (hashFn input) ⟨hashFn input, input, 1⟩ hen2 hlen hfound2]

theorem C5_dedup_second_encode_witness :
    (CompressTransaction specHash
        (CompressTransaction specHash (SetCompressionEnabled initStorage true) [1, 2, 3]).2
        [1, 2, 3]).1
      = 254 :: specHash [1, 2, 3]
    ∧ ((CompressTransaction specHash
        (CompressTransaction specHash (SetCompressionEnabled initStorage true) [1, 2, 3]).2
        [1, 2, 3]).1).length = 33
    ∧ (DecompressTransaction
        (CompressTransaction specHash
          (CompressTransaction specHash (SetCompressionEnabled initStorage true) [1, 2, 3]).2
          [1, 2, 3]).2
        ((CompressTransaction specHash
          (CompressTransaction specHash (SetCompressionEnabled initStorage true) [1, 2, 3]).2
          [1, 2, 3]).1)).1
      = .ok [1, 2, 3] :=
  C5_dedup_second_encode specHash (SetCompressionEnabled initStorage true) [1, 2, 3]
    (specHash_length [1, 2, 3]) rfl (by decide) rfl

/-- `CCompressedStorage::DeltaEncode`: writes the signed size difference
`target.size() - base.size()` (computed as `int64_t`) as 4 bytes via
`(sizeDiff >> k) & 0xFF` with arithmetic shifts — byte-for-byte the
big-endian two's-complement 32-bit pattern, i.e. the bytes of
`sizeDiff mod 2 ^ 32` — then the XOR of the overlapping prefix
(`min(base.size(), target.size())` bytes, here the automatic
truncation of `zipWith`), then any suffix of `target` beyond
`base.size()` verbatim.  Always returns `true` in the source. -/
def DeltaEncode (base target : List Nat) : List Nat :=
  let sizeDiff : Int := (target.length : Int) - (base.length : Int)
  let n : Nat := (sizeDiff % (2 ^ 32 : Int)).toNat
  [n / 2 ^ 24 % 256, n / 2 ^ 16 % 256, n / 2 ^ 8 % 256, n % 256]
    ++ List.zipWith (fun t b => t ^^^ b) target base
    ++ (if base.length < target.length then target.drop base.length else [])

/-- `CCompressedStorage::DeltaDecode`: fails (`false`, modelled `none`)
when the delta is shorter than 4 bytes; reassembles the size field by
ORing the four bytes into an `int64_t` *without sign extension* (so the
value read is the plain big-endian `Nat`, never negative); computes
`targetSize = base.size() + sizeDiff` in `size_t` arithmetic (wraparound
modulo `2 ^ 64` made explicit); XOR-reconstructs while `i < minSize` and
`i + 4 < delta.size()`; if `targetSize > base.size()` appends the delta
bytes from index `minSize + 4` on (in that branch `minSize = base.size()`);
finally returns the buffer only if its length equals `targetSize`. -/
def DeltaDecode (base delta : List Nat) : Option (List Nat) :=
  if delta.length < 4 then none
  else
    let sizeDiff := be32 (delta.getD 0 0) (delta.getD 1 0) (delta.getD 2 0) (delta.getD 3 0)
    let targetSize := (base.length + sizeDiff) % 2 ^ 64
    let minSize := min base.length targetSize
    let part1 := (List.zipWith (fun b d => b ^^^ d) base (delta.drop 4)).take minSize
    let part2 := if base.length < targetSize then delta.drop (4 + minSize) else []
    let target := part1 ++ part2
    if target.length = targetSize then some target else none

/-- C2: the delta roundtrip is violated whenever the target is shorter
than the base: `DeltaEncode [0, 0] [7]` stores the signed difference
`-1` as the bytes `FF FF FF FF`, `DeltaDecode` reads them back without
sign extension as `2 ^ 32 - 1`, expects a `2 ^ 32 + 1`-byte target, and
therefore fails (`false` in the source, `none` here) even though the
XOR prefix had reconstructed `[7]` correctly. -/
theorem C2_delta_roundtrip_violation :
    DeltaDecode [0, 0] (DeltaEncode [0, 0] [7]) = none
    ∧ DeltaEncode [0, 0] [7] = [255, 255, 255, 255, 7] := by
  constructor
  · decide
  · decide
